import Mathlib

/-!
# HTTP transport core (aicurlprivate.h): embedding and properties

Shallow embedding of the inline member functions of
`indra/llmessage/aicurlprivate.h` (`HTTPTimeout`, `CurlEasyHandle`,
`CurlEasyRequest`, `BufferedCurlEasyRequest`, `ThreadSafeBufferedCurlEasyRequest`,
`CurlMultiHandle`) together with models of the per-host queue and of the
out-of-line members, which are written after the design text because their
bodies are not part of the header; and of the helpers `getLoginUriDomain` and
`getMarketplaceDomain` of `indra/newview/llmarketplacefunctions.cpp` and the
members `writeToFile` and `addHelpItemToHistory` of `LLScriptEdCore` in
`indra/newview/llpreviewscript.cpp`.

Machine integers are natural numbers or integers; `U32` arithmetic is reduced
modulo `2 ^ 32` where the header declares a `U32`. A `std::string` is the list
of its characters.
-/

namespace AICurlPrivate

/-! ## Scalars -/

/-- The modulus of `U32` arithmetic. -/
def U32_MOD : Nat := 4294967296

/-- The largest `U64` value, the result of `(U64)-1`. -/
def U64_MAX : Nat := 18446744073709551615

/-- A libcurl `CURLcode`; only its identity matters here. -/
abbrev CURLcode := Nat

/-- Identity of a request (the address of its `ThreadSafeBufferedCurlEasyRequest`). -/
abbrev Request := Nat

namespace curlthread

/-! ## HTTPTimeout -/

/-- Member variables of `class HTTPTimeout`, in declaration order (`mPolicy` is
passed to the operations that read it). -/
structure HTTPTimeout where
  /-- Number of bytes transfered in each second (`std::vector<U32>`). -/
  mBuckets : List Nat
  /-- The bucket corresponding to `mLastSecond` (`U16`). -/
  mBucket : Nat
  /-- Set when created, reset when the reply header is received. -/
  mNothingReceivedYet : Bool
  /-- Set while uploading or downloading data. -/
  mLowSpeedOn : Bool
  /-- Whether `upload_finished` was called yet. -/
  mUploadFinished : Bool
  /-- The second at which `lowspeed` was last called, since `mLowSpeedClock` (`S32`). -/
  mLastSecond : Int
  /-- The sum of all bytes in `mBuckets` (`U32`). -/
  mTotalBytes : Nat
  /-- Clock count at which low speed detection (re)started (`U64`). -/
  mLowSpeedClock : Nat
  /-- The clock count at which the transaction is considered to be stalling (`U64`). -/
  mStalled : Nat
  deriving Repr, DecidableEq

/-- `bool has_stalled(void) const { return mStalled < sClockCount; }` with the
static `sClockCount` passed in. -/
def HTTPTimeout.has_stalled (t : HTTPTimeout) (sClockCount : Nat) : Bool :=
  decide (t.mStalled < sClockCount)

/-- The index of the current bucket lies inside the bucket vector. -/
def HTTPTimeout.bucket_in_range (t : HTTPTimeout) : Prop :=
  t.mBucket < t.mBuckets.length

/-- The invariant noted at `mTotalBytes`: it is the sum of all bytes in
`mBuckets`, as a `U32`. -/
def HTTPTimeout.total_is_sum (t : HTTPTimeout) : Prop :=
  t.mTotalBytes = t.mBuckets.sum % U32_MOD

instance HTTPTimeout.bucket_in_range_decidable (t : HTTPTimeout) :
    Decidable t.bucket_in_range :=
  inferInstanceAs (Decidable (t.mBucket < t.mBuckets.length))

instance HTTPTimeout.total_is_sum_decidable (t : HTTPTimeout) :
    Decidable t.total_is_sum :=
  inferInstanceAs (Decidable (t.mTotalBytes = t.mBuckets.sum % U32_MOD))

end curlthread

open curlthread

/-! ## CurlEasyHandle -/

/-- Member variables of `class CurlEasyHandle` that the inline members use.
Pointers are numbers, `0` being `NULL`. -/
structure CurlEasyHandle where
  /-- The wrapped `CURL*`. -/
  mEasyHandle : Nat
  /-- The `CURLM*` this handle was added to, or `NULL`. -/
  mActiveMultiHandle : Nat
  /-- Set if the easy handle is queued for removal. -/
  mQueuedForRemoval : Bool
  deriving Repr, DecidableEq

/-- `void remove_queued(void) { mQueuedForRemoval = true; }` -/
def CurlEasyHandle.remove_queued (h : CurlEasyHandle) : CurlEasyHandle :=
  { h with mQueuedForRemoval := true }

/-- `void add_queued(void) { mQueuedForRemoval = false; }` -/
def CurlEasyHandle.add_queued (h : CurlEasyHandle) : CurlEasyHandle :=
  { h with mQueuedForRemoval := false }

/-- `bool active(void) const { return mActiveMultiHandle; }` -/
def CurlEasyHandle.active (h : CurlEasyHandle) : Bool :=
  decide (h.mActiveMultiHandle ≠ 0)

/-- `bool no_warning(void) const { return mQueuedForRemoval || LLApp::isExiting(); }`
where `isExiting` is the value `LLApp::isExiting()` returns at the call. -/
def CurlEasyHandle.no_warning (h : CurlEasyHandle) (isExiting : Bool) : Bool :=
  h.mQueuedForRemoval || isExiting

/-! ## CurlEasyRequest -/

/-- Member variables of `class CurlEasyRequest` that the inline members use, on
top of its `CurlEasyHandle` base. -/
structure CurlEasyRequest where
  /-- The `CurlEasyHandle` base class. -/
  handle : CurlEasyHandle
  /-- Result code stored by `storeResult`. -/
  mResult : CURLcode
  /-- The timeout policy pointer, `0` before `finalizeRequest`. -/
  mTimeoutPolicy : Nat
  /-- The timeout administration object (`LLPointer<HTTPTimeout>`), if any. -/
  mTimeout : Option HTTPTimeout
  /-- Set when `mTimeout` is not (yet) associated with a `CurlSocketInfo`. -/
  mTimeoutIsOrphan : Bool
  deriving Repr, DecidableEq

/-- The out-of-line calls that `CurlEasyRequest::done` makes, in the order made. -/
inductive Call where
  /-- A call of `HTTPTimeout::done(request, code)` on `mTimeout`. -/
  | timeout_done (code : CURLcode)
  /-- A call of `CurlEasyRequest::finished(request)`. -/
  | finished
  deriving Repr, DecidableEq

/-- The body of `CurlEasyRequest::done`:
`if (mTimeout) { mTimeout->done(curl_easy_request_w, result); } finished(curl_easy_request_w);`
The two callees are defined out of line; each call is appended to `log`. -/
def CurlEasyRequest.done (r : CurlEasyRequest) (result : CURLcode) (log : List Call) :
    List Call :=
  let log1 :=
    match r.mTimeout with
    | some _ => log ++ [Call.timeout_done result]
    | none => log
  log1 ++ [Call.finished]

/-! ## ThreadSafeBufferedCurlEasyRequest -/

/-- The reference counter of `class ThreadSafeBufferedCurlEasyRequest`
(`LLAtomicU32 mReferenceCount`) and a ghost counter of how often the destructor
of the object ran. -/
structure ThreadSafeBufferedCurlEasyRequest where
  /-- The `LLAtomicU32` reference counter. -/
  mReferenceCount : Nat
  /-- Ghost: number of times the object was destroyed. -/
  destroyed : Nat
  deriving Repr, DecidableEq

/-- The constructor `ThreadSafeBufferedCurlEasyRequest(void) : mReferenceCount(0)`. -/
def ThreadSafeBufferedCurlEasyRequest.new : ThreadSafeBufferedCurlEasyRequest :=
  { mReferenceCount := 0, destroyed := 0 }

/-- Modelled from the spec: `intrusive_ptr_add_ref`, declared a friend in the
header and defined elsewhere. Section 4.3: creating a shared handle increments
the reference count atomically; the counter is a `U32`. -/
def intrusive_ptr_add_ref (p : ThreadSafeBufferedCurlEasyRequest) :
    ThreadSafeBufferedCurlEasyRequest :=
  { p with mReferenceCount := (p.mReferenceCount + 1) % U32_MOD }

/-- Modelled from the spec: `intrusive_ptr_release`, declared a friend in the
header and defined elsewhere. Section 4.3: releasing a shared handle decrements
the reference count, and the object is destroyed exactly when the count
transitions to zero. -/
def intrusive_ptr_release (p : ThreadSafeBufferedCurlEasyRequest) :
    ThreadSafeBufferedCurlEasyRequest :=
  let count := (p.mReferenceCount + U32_MOD - 1) % U32_MOD
  if count = 0 then
    { mReferenceCount := count, destroyed := p.destroyed + 1 }
  else
    { p with mReferenceCount := count }

/-! ## PerHostQueue -/

/-- Modelled from the spec: the per-host queue state that `mPerHostPtr` points
to (its class is declared in `aicurlperhost.h`, which is not among the
sources). Section 3: the count of requests currently handed to the driver for
the host, the ordered queue of pending requests awaiting admission, and the
configured concurrency ceiling. -/
structure PerHostQueue where
  /-- The configured concurrency ceiling. -/
  ceiling : Nat
  /-- Count of requests currently handed to the driver. -/
  active : Nat
  /-- Pending requests awaiting admission, oldest first. -/
  pending : List Request
  deriving Repr, DecidableEq

/-- Modelled from the spec: `tryAdmit(host, request)` of section 4.4, on the
queue of that host: returns true and increments the active count if the host is
under its concurrency ceiling, else enqueues the request and returns false. -/
def PerHostQueue.tryAdmit (q : PerHostQueue) (r : Request) : Bool × PerHostQueue :=
  if q.active < q.ceiling then
    (true, { q with active := q.active + 1 })
  else
    (false, { q with pending := q.pending ++ [r] })

/-- Modelled from the spec: `onRequestFinished(host)` of section 4.4, on the
queue of that host: decrements the active count and, if the pending queue is
non-empty, admits the next request in FIFO order; the admitted request, which
is handed directly to the driver, is returned. -/
def PerHostQueue.onRequestFinished (q : PerHostQueue) : Option Request × PerHostQueue :=
  let q1 := { q with active := q.active - 1 }
  match q1.pending with
  | [] => (none, q1)
  | r :: rest => (some r, { q1 with active := q1.active + 1, pending := rest })

/-! ## The driver, restricted to one host -/

/-- Modelled from the spec: the part of the multi handle driver of section 4.6
that concerns one host (`curlthread::MultiHandle` is only forward declared in
the header): the host queue, the requests that are `Active` (registered with the
native engine), and two logs: the requests in the order of their admission and
the requests in the order in which their completion hook ran. -/
structure Driver where
  /-- The queue of the host. -/
  host : PerHostQueue
  /-- Requests of the host that are `Active`. -/
  activeSet : List Request
  /-- Requests in the order in which they became `Active`. -/
  admitted : List Request
  /-- Requests whose completion hook was called, oldest first. -/
  completed : List Request
  deriving Repr, DecidableEq

/-- What the driver reacts to: an `AddRequest` command, or the native engine
reporting a transfer as finished. -/
inductive DriverEvent where
  /-- `AddRequest(handle)` taken from the command queue. -/
  | submit (r : Request)
  /-- The native engine reports the transfer of `r` as finished. -/
  | finish (r : Request)
  deriving Repr, DecidableEq

/-- Modelled from the spec: the driver before any request, for a host with
concurrency ceiling `n`. -/
def Driver.init (n : Nat) : Driver :=
  { host := { ceiling := n, active := 0, pending := [] }
    activeSet := []
    admitted := []
    completed := [] }

/-- Modelled from the spec: the `AddRequest` path of section 4.6: ask the host
queue; if admitted, register with the native engine (`Queued → Active`); if not
admitted, the request stays in the pending list of the host queue. -/
def Driver.add_easy_request (d : Driver) (r : Request) : Driver :=
  let res := d.host.tryAdmit r
  if res.1 then
    { d with host := res.2, activeSet := d.activeSet ++ [r], admitted := d.admitted ++ [r] }
  else
    { d with host := res.2 }

/-- Modelled from the spec: draining one finished native handle, section 4.6:
the handle is marked removed, its completion hook is called, and
`onRequestFinished` is called, which may admit a new request that is then handed
to the driver. The native engine only reports handles that are registered with
it, so for any other request nothing happens. -/
def Driver.finish_easy_request (d : Driver) (r : Request) : Driver :=
  if r ∈ d.activeSet then
    let res := d.host.onRequestFinished
    let act := d.activeSet.erase r
    { host := res.2
      activeSet := match res.1 with
        | some r2 => act ++ [r2]
        | none => act
      admitted := match res.1 with
        | some r2 => d.admitted ++ [r2]
        | none => d.admitted
      completed := d.completed ++ [r] }
  else
    d

/-- One step of the driver. -/
def Driver.step (d : Driver) : DriverEvent → Driver
  | DriverEvent.submit r => d.add_easy_request r
  | DriverEvent.finish r => d.finish_easy_request r

/-- The driver after a sequence of events. -/
def Driver.run (d : Driver) (evs : List DriverEvent) : Driver :=
  evs.foldl Driver.step d

/-- The requests that a sequence of events submits, in submission order. -/
def submitted : List DriverEvent → List Request
  | [] => []
  | DriverEvent.submit r :: evs => r :: submitted evs
  | DriverEvent.finish _ :: evs => submitted evs

/-- The bookkeeping invariant of the driver for one host: the host counts
exactly the `Active` requests, never more than its ceiling; requests only wait
while the host is at its ceiling; and the admitted requests followed by the
pending ones are the submitted requests `subs` in submission order. -/
def Driver.consistent (d : Driver) (subs : List Request) : Prop :=
  d.activeSet.length = d.host.active ∧
    d.host.active ≤ d.host.ceiling ∧
    (d.host.pending ≠ [] → d.host.ceiling ≤ d.host.active) ∧
    d.admitted ++ d.host.pending = subs

/-- The driver of a host with ceiling 1 to which `R1`, `R2`, `R3` were submitted
in this order, after `k` of them completed. -/
def Driver.serving (R1 R2 R3 : Request) : Nat → Driver
  | 0 =>
    { host := { ceiling := 1, active := 1, pending := [R2, R3] }
      activeSet := [R1], admitted := [R1], completed := [] }
  | 1 =>
    { host := { ceiling := 1, active := 1, pending := [R3] }
      activeSet := [R2], admitted := [R1, R2], completed := [R1] }
  | 2 =>
    { host := { ceiling := 1, active := 1, pending := [] }
      activeSet := [R3], admitted := [R1, R2, R3], completed := [R1, R2] }
  | _ + 3 =>
    { host := { ceiling := 1, active := 0, pending := [] }
      activeSet := [], admitted := [R1, R2, R3], completed := [R1, R2, R3] }

/-- A libcurl `CURLMcode`; `CURLM_CALL_MULTI_PERFORM` is negative. -/
abbrev CURLMcode := Int

/-- A libcurl `CURLoption`. -/
abbrev CURLoption := Nat

/-- A libcurl `CURLINFO`. -/
abbrev CURLINFO := Nat

/-- The success code of the easy interface. -/
def CURLE_OK : CURLcode := 0

/-- The success code of the multi interface. -/
def CURLM_OK : CURLMcode := 0

/-- A call of one of the error handlers, which are defined out of line. -/
inductive HandlerCall where
  /-- A call of `CurlEasyHandle::handle_easy_error(code)`. -/
  | handle_easy_error (code : CURLcode)
  /-- A call of `handle_multi_error(code)`. -/
  | handle_multi_error (code : CURLMcode)
  deriving Repr, DecidableEq

/-- The globals that the checking functions touch: the call counters
`AICurlInterface::Stats::easy_calls` and `AICurlInterface::Stats::multi_calls`,
and the calls of the error handlers made so far, oldest first. -/
structure CurlStats where
  /-- `AICurlInterface::Stats::easy_calls`. -/
  easy_calls : Nat
  /-- `AICurlInterface::Stats::multi_calls`. -/
  multi_calls : Nat
  /-- Calls of `handle_easy_error` and `handle_multi_error`. -/
  handled : List HandlerCall
  deriving Repr, DecidableEq

/-- `CurlEasyHandle::check_easy_code`:
`AICurlInterface::Stats::easy_calls++; if (code != CURLE_OK) handle_easy_error(code); return code;` -/
def CurlEasyHandle.check_easy_code (code : CURLcode) (w : CurlStats) : CURLcode × CurlStats :=
  let w1 := { w with easy_calls := w.easy_calls + 1 }
  let w2 :=
    if code ≠ CURLE_OK then
      { w1 with handled := w1.handled ++ [HandlerCall.handle_easy_error code] }
    else w1
  (code, w2)

/-- `check_multi_code`:
`AICurlInterface::Stats::multi_calls++; if (code != CURLM_OK) handle_multi_error(code); return code;` -/
def check_multi_code (code : CURLMcode) (w : CurlStats) : CURLMcode × CurlStats :=
  let w1 := { w with multi_calls := w.multi_calls + 1 }
  let w2 :=
    if code ≠ CURLM_OK then
      { w1 with handled := w1.handled ++ [HandlerCall.handle_multi_error code] }
    else w1
  (code, w2)

end AICurlPrivate

/-- Modelled from the spec: the `llassert` macro, whose header is not among the
sources. Section 7: a programming error is asserted in debug builds. With
`SHOW_ASSERT` a false condition aborts the call (`none`); without it the
condition is not checked. -/
def llassert (SHOW_ASSERT : Bool) (cond : Bool) : Option Unit :=
  if SHOW_ASSERT && !cond then none else some ()

namespace AICurlPrivate

open curlthread

/-! ## CurlMultiHandle -/

/-- The multi options that `CurlMultiHandle::setopt` mentions; any other option
of libcurl is `other`. -/
inductive CURLMoption where
  | CURLMOPT_SOCKETFUNCTION
  | CURLMOPT_SOCKETDATA
  | CURLMOPT_PIPELINING
  | CURLMOPT_TIMERFUNCTION
  | CURLMOPT_TIMERDATA
  | CURLMOPT_MAXCONNECTS
  | other (n : Nat)
  deriving Repr, DecidableEq

/-- The third argument of `curl_multi_setopt`, by parameter type of the
overload that passes it. -/
inductive MultiParam where
  /-- A `long`. -/
  | long (parameter : Int)
  /-- A `curl_socket_callback`. -/
  | socket_callback (parameter : Nat)
  /-- A `curl_multi_timer_callback`. -/
  | timer_callback (parameter : Nat)
  /-- A `void*`. -/
  | object (parameter : Nat)
  deriving Repr, DecidableEq

/-- The member of `class CurlMultiHandle`. -/
structure CurlMultiHandle where
  /-- The wrapped `CURLM*`. -/
  mMultiHandle : Nat
  deriving Repr, DecidableEq

/-- The native `curl_multi_setopt`, as the code it returns for a multi handle,
an option and a parameter. -/
abbrev NativeMultiSetopt := Nat → CURLMoption → MultiParam → CURLMcode

/-- `CurlMultiHandle::setopt(CURLMoption, long)`:
`llassert(option == CURLMOPT_MAXCONNECTS || option == CURLMOPT_PIPELINING);`
`return check_multi_code(curl_multi_setopt(mMultiHandle, option, parameter));` -/
def CurlMultiHandle.setopt_long (SHOW_ASSERT : Bool) (curl_multi_setopt : NativeMultiSetopt)
    (m : CurlMultiHandle) (option : CURLMoption) (parameter : Int) (w : CurlStats) :
    Option (CURLMcode × CurlStats) :=
  (llassert SHOW_ASSERT
    (option == CURLMoption.CURLMOPT_MAXCONNECTS ||
      option == CURLMoption.CURLMOPT_PIPELINING)).bind fun _ =>
    some (check_multi_code (curl_multi_setopt m.mMultiHandle option (MultiParam.long parameter)) w)

/-- `CurlMultiHandle::setopt(CURLMoption, curl_socket_callback)`:
`llassert(option == CURLMOPT_SOCKETFUNCTION);`
`return check_multi_code(curl_multi_setopt(mMultiHandle, option, parameter));` -/
def CurlMultiHandle.setopt_socket_callback (SHOW_ASSERT : Bool)
    (curl_multi_setopt : NativeMultiSetopt) (m : CurlMultiHandle) (option : CURLMoption)
    (parameter : Nat) (w : CurlStats) : Option (CURLMcode × CurlStats) :=
  (llassert SHOW_ASSERT (option == CURLMoption.CURLMOPT_SOCKETFUNCTION)).bind fun _ =>
    some (check_multi_code
      (curl_multi_setopt m.mMultiHandle option (MultiParam.socket_callback parameter)) w)

/-- `CurlMultiHandle::setopt(CURLMoption, curl_multi_timer_callback)`:
`llassert(option == CURLMOPT_TIMERFUNCTION);`
`return check_multi_code(curl_multi_setopt(mMultiHandle, option, parameter));` -/
def CurlMultiHandle.setopt_timer_callback (SHOW_ASSERT : Bool)
    (curl_multi_setopt : NativeMultiSetopt) (m : CurlMultiHandle) (option : CURLMoption)
    (parameter : Nat) (w : CurlStats) : Option (CURLMcode × CurlStats) :=
  (llassert SHOW_ASSERT (option == CURLMoption.CURLMOPT_TIMERFUNCTION)).bind fun _ =>
    some (check_multi_code
      (curl_multi_setopt m.mMultiHandle option (MultiParam.timer_callback parameter)) w)

/-- `CurlMultiHandle::setopt(CURLMoption, void*)`:
`llassert(option == CURLMOPT_SOCKETDATA || option == CURLMOPT_TIMERDATA);`
`return check_multi_code(curl_multi_setopt(mMultiHandle, option, parameter));` -/
def CurlMultiHandle.setopt_object (SHOW_ASSERT : Bool) (curl_multi_setopt : NativeMultiSetopt)
    (m : CurlMultiHandle) (option : CURLMoption) (parameter : Nat) (w : CurlStats) :
    Option (CURLMcode × CurlStats) :=
  (llassert SHOW_ASSERT
    (option == CURLMoption.CURLMOPT_SOCKETDATA ||
      option == CURLMoption.CURLMOPT_TIMERDATA)).bind fun _ =>
    some (check_multi_code
      (curl_multi_setopt m.mMultiHandle option (MultiParam.object parameter)) w)

/-! ## Integer conversions of CurlEasyHandle -/

/-- Conversion of an integer to a signed integer type of `bits` bits (two's
complement): `(long)parameter` for the width of `long`, `static_cast<S32>` for
32 bits. -/
def signed_cast (bits : Nat) (v : Int) : Int :=
  (v + 2 ^ (bits - 1)) % 2 ^ bits - 2 ^ (bits - 1)

/-- Conversion of an integer to an unsigned integer type of `bits` bits:
`static_cast<U32>` for 32 bits. -/
def unsigned_cast (bits : Nat) (v : Int) : Nat :=
  (v % 2 ^ bits).toNat

/-- `CURLcode setopt(CURLoption option, U32 parameter) { return setopt(option, (long)parameter); }`
The overload `setopt(CURLoption, long)` is defined out of line and is passed in
as `setopt_long`, acting on a state `σ`; `LONG_BITS` is the width of `long`. -/
def CurlEasyHandle.setopt_U32 {σ : Type} (LONG_BITS : Nat)
    (setopt_long : CURLoption → Int → σ → CURLcode × σ) (option : CURLoption)
    (parameter : Nat) (s : σ) : CURLcode × σ :=
  setopt_long option (signed_cast LONG_BITS (parameter : Int)) s

/-- `CURLcode setopt(CURLoption option, S32 parameter) { return setopt(option, (long)parameter); }` -/
def CurlEasyHandle.setopt_S32 {σ : Type} (LONG_BITS : Nat)
    (setopt_long : CURLoption → Int → σ → CURLcode × σ) (option : CURLoption)
    (parameter : Int) (s : σ) : CURLcode × σ :=
  setopt_long option (signed_cast LONG_BITS parameter) s

/-- The `__LP64__` overload
`CURLcode getinfo(CURLINFO info, S32* data) const`:
`long ldata; CURLcode res = getinfo_priv(info, &ldata); *data = static_cast<S32>(ldata); return res;`
`getinfo_priv` is defined out of line; it is passed in as the result code and
the value of `ldata` after the call. The result is the returned code and the
value stored in `*data`. -/
def CurlEasyHandle.getinfo_S32 {σ : Type} (getinfo_priv : CURLINFO → σ → CURLcode × Int)
    (info : CURLINFO) (s : σ) : CURLcode × Int :=
  let r := getinfo_priv info s
  (r.1, signed_cast 32 r.2)

/-- The `__LP64__` overload
`CURLcode getinfo(CURLINFO info, U32* data) const`:
`long ldata; CURLcode res = getinfo_priv(info, &ldata); *data = static_cast<U32>(ldata); return res;` -/
def CurlEasyHandle.getinfo_U32 {σ : Type} (getinfo_priv : CURLINFO → σ → CURLcode × Int)
    (info : CURLINFO) (s : σ) : CURLcode × Nat :=
  let r := getinfo_priv info s
  (r.1, unsigned_cast 32 r.2)

/-! ## BufferedCurlEasyRequest -/

/-- Member variables of `class BufferedCurlEasyRequest` that validity and the
status decoding use. `mResponder` is the responder pointer, `0` being `NULL`. -/
structure BufferedCurlEasyRequest where
  /-- The `LLHTTPClient::ResponderPtr`. -/
  mResponder : Nat
  /-- HTTP status, decoded from the first header line (`U32`). -/
  mStatus : Nat
  /-- The "reason" from the same header line. -/
  mReason : List Char
  deriving Repr, DecidableEq

/-- `bool isValid(void) const { return mResponder; }` -/
def BufferedCurlEasyRequest.isValid (b : BufferedCurlEasyRequest) : Bool :=
  decide (b.mResponder ≠ 0)

/-- Modelled from the spec: `prepRequest(request, headers, responder)`, declared
in the header and defined elsewhere. Section 4.2: it attaches the response
callback. The resetting of the decode state and the arming of the native
callbacks of section 4.2 write no member that `isValid` reads and are left
out. -/
def BufferedCurlEasyRequest.prepRequest (b : BufferedCurlEasyRequest) (responder : Nat) :
    BufferedCurlEasyRequest :=
  { b with mResponder := responder }

/-- Modelled from the spec: `timed_out()`, declared in the header and defined
elsewhere. Section 4.2: it marks the object invalid; by the comment at
`isValid` that is what `isValid` reports, so the responder is released. The
failure completion it synthesizes goes to the responder and is left out. -/
def BufferedCurlEasyRequest.timed_out (b : BufferedCurlEasyRequest) :
    BufferedCurlEasyRequest :=
  { b with mResponder := 0 }

/-- `bool has_stalled(void) const { return mTimeout && mTimeout->has_stalled(); }`
The member is `const`: the request is returned as it was. -/
def CurlEasyRequest.has_stalled (r : CurlEasyRequest) (sClockCount : Nat) :
    Bool × CurlEasyRequest :=
  (match r.mTimeout with
    | some t => t.has_stalled sClockCount
    | none => false, r)

end AICurlPrivate

/-! # Marketplace helpers (llmarketplacefunctions.cpp) -/

namespace llmarketplacefunctions

/-- `std::string::substr(pos, n)` on a string given as its characters: the `n`
characters from `pos`, fewer at the end of the string; it throws (`none`) when
`pos` lies beyond the end. -/
def substr (s : List Char) (pos n : Nat) : Option (List Char) :=
  if pos ≤ s.length then some ((s.drop pos).take n) else none

/-- `std::string::substr(pos)`: the rest of the string from `pos`; it throws
(`none`) when `pos` lies beyond the end. -/
def substr_from (s : List Char) (pos : Nat) : Option (List Char) :=
  if pos ≤ s.length then some (s.drop pos) else none

/-- `getLoginUriDomain()`, on the value `hostName` of
`LLURI(gHippoGridManager->getConnectedGrid()->getLoginUri()).hostName()`:
`if (hostname.substr(0, 6) == "login.") { hostname = hostname.substr(6); } return hostname;` -/
def getLoginUriDomain (hostName : List Char) : Option (List Char) :=
  (substr hostName 0 6).bind fun head =>
    if head = "login.".toList then substr_from hostName 6 else some hostName

/-- `getMarketplaceDomain()`. `isSecondLife` is
`gHippoGridManager->getCurrentGrid()->isSecondLife()`, `isInProductionGrid` is
`gHippoGridManager->getConnectedGrid()->isInProductionGrid()`, `hostName` is the
host name of the login URI, and `utf8str_tolower` is the library function of
that name. The result is `none` when the `llassert` aborts. -/
def getMarketplaceDomain (SHOW_ASSERT : Bool) (utf8str_tolower : List Char → List Char)
    (isSecondLife isInProductionGrid : Bool) (hostName : List Char) : Option (List Char) :=
  if isSecondLife then
    if isInProductionGrid then
      some "secondlife.com".toList
    else
      (getLoginUriDomain hostName).bind fun loginUriDomain =>
        let domain := utf8str_tolower loginUriDomain
        let len := domain.length
        (llassert SHOW_ASSERT
          (decide (len > 14) &&
            (substr_from domain (len - 14) == some ".lindenlab.com".toList))).bind fun _ =>
          if domain = "damballah.lindenlab.com".toList then
            some "secondlife-staging.com".toList
          else
            some domain
  else
    getLoginUriDomain hostName

end llmarketplacefunctions

/-! # Script editor core (llpreviewscript.cpp) -/

/-- `const S32 MAX_HISTORY_COUNT = 10;` -/
def MAX_HISTORY_COUNT : Int := 10

/-- A row added to the error list: the `value` and the `font` of its first
column. -/
structure ErrorRow where
  /-- The `row["columns"][0]["value"]`. -/
  value : String
  /-- The `row["columns"][0]["font"]`. -/
  font : String
  deriving Repr, DecidableEq

/-- The operations of `LLComboBox` that `addHelpItemToHistory` calls, on a combo
box of type `κ`; the class is defined in the UI library. -/
structure LLComboBoxOps (κ : Type) where
  /-- The call `addElement(row, ADD_TOP)` with the separator row. -/
  addElement_separator_top : κ → κ
  /-- The call `remove(index)`. -/
  remove : κ → Int → κ
  /-- The call `setSimple(name)`. -/
  setSimple : κ → List Char → κ
  /-- The call `getCurrentIndex()`. -/
  getCurrentIndex : κ → Int
  /-- The call `add(name, LLSD(name), ADD_TOP)`. -/
  add_top : κ → List Char → κ
  /-- The call `selectFirstItem()`. -/
  selectFirstItem : κ → κ

/-- The members of `class LLScriptEdCore` that `writeToFile` and
`addHelpItemToHistory` use. -/
structure LLScriptEdCore (κ : Type) where
  /-- The text of the editor, `mEditor->getText()`, as its bytes. -/
  mEditor : List Char
  /-- The rows of `mErrorList`, oldest first. -/
  mErrorList : List ErrorRow
  /-- The floater behind `mLiveHelpHandle`, if it is alive, as its
  `history_combo` child, if it has one. -/
  mLiveHelpHandle : Option (Option κ)
  /-- The number of history items at the top of the combo box (`S32`). -/
  mLiveHelpHistorySize : Int

/-- The C string that `c_str()` hands to `fputs`: the bytes before the first
NUL. -/
def c_str (s : List Char) : List Char :=
  s.takeWhile fun c => c ≠ Char.ofNat 0

/-- `LLScriptEdCore::writeToFile(filename)`. `opened` tells whether
`LLFile::fopen(filename, "wb")` returned a file. The result is the returned
value, the editor core afterwards, and what `fputs` wrote to the file, `none`
when no file was written. -/
def LLScriptEdCore.writeToFile {κ : Type} (self : LLScriptEdCore κ) (opened : Bool) :
    Bool × LLScriptEdCore κ × Option (List Char) :=
  if !opened then
    let row : ErrorRow :=
      { value := "Error writing to local file. Is your hard drive full?"
        font := "SANSSERIF_SMALL" }
    (false, { self with mErrorList := self.mErrorList ++ [row] }, none)
  else
    let utf8text := self.mEditor
    let utf8text := if utf8text.length = 0 then " ".toList else utf8text
    (true, self, some (c_str utf8text))

/-- The loop of `addHelpItemToHistory` that deletes all history items over the
history limit:
`while(mLiveHelpHistorySize > MAX_HISTORY_COUNT - 1) { history_combo->remove(mLiveHelpHistorySize - 1); mLiveHelpHistorySize--; }` -/
def LLScriptEdCore.trimHistory {κ : Type} (ops : LLComboBoxOps κ) (history_combo : κ)
    (mLiveHelpHistorySize : Int) : κ × Int :=
  if mLiveHelpHistorySize > MAX_HISTORY_COUNT - 1 then
    LLScriptEdCore.trimHistory ops (ops.remove history_combo (mLiveHelpHistorySize - 1))
      (mLiveHelpHistorySize - 1)
  else
    (history_combo, mLiveHelpHistorySize)
termination_by (mLiveHelpHistorySize - (MAX_HISTORY_COUNT - 1)).toNat
decreasing_by
  simp only [MAX_HISTORY_COUNT] at *
  omega

/-- `LLScriptEdCore::addHelpItemToHistory(help_string)`. -/
def LLScriptEdCore.addHelpItemToHistory {κ : Type} (ops : LLComboBoxOps κ)
    (self : LLScriptEdCore κ) (help_string : List Char) : LLScriptEdCore κ :=
  if help_string.isEmpty then self
  else
    match self.mLiveHelpHandle with
    | none => self
    | some none => self
    | some (some history_combo) =>
      -- separate history items from full item list
      let combo1 :=
        if self.mLiveHelpHistorySize = 0 then ops.addElement_separator_top history_combo
        else history_combo
      -- delete all history items over history limit
      let trimmed := LLScriptEdCore.trimHistory ops combo1 self.mLiveHelpHistorySize
      let combo2 := ops.setSimple trimmed.1 help_string
      let index := ops.getCurrentIndex combo2
      -- if help string exists in the combo box
      let found :=
        if index ≥ 0 ∧ ops.getCurrentIndex combo2 < trimmed.2 then
          -- item found in history, bubble up to top
          (ops.remove combo2 (ops.getCurrentIndex combo2), trimmed.2 - 1)
        else
          (combo2, trimmed.2)
      let combo3 := ops.selectFirstItem (ops.add_top found.1 help_string)
      { self with
        mLiveHelpHandle := some (some combo3)
        mLiveHelpHistorySize := found.2 + 1 }

/-- A combo box kept as the list of its labels and the index of the selected
one, `-1` for none, with the `LLComboBox` operations acting on it. The
separator is the empty label. -/
def listComboBox : LLComboBoxOps (List (List Char) × Int) where
  addElement_separator_top := fun c => ([] :: c.1, c.2)
  remove := fun c i => if 0 ≤ i then (c.1.eraseIdx i.toNat, c.2) else c
  setSimple := fun c name =>
    (c.1, if name ∈ c.1 then (c.1.indexOf name : Int) else -1)
  getCurrentIndex := fun c => c.2
  add_top := fun c name => (name :: c.1, c.2)
  selectFirstItem := fun c => (c.1, if c.1 = [] then -1 else 0)

/-! # Marketplace import (llmarketplacefunctions.cpp) -/

/-- An `LLSD` value as far as the importer tells values apart: the result of
`LLSD::emptyMap()` and any other value. -/
inductive LLSD where
  | emptyMap
  | value (n : Nat)
  deriving Repr, DecidableEq

/-- The headers of an HTTP request, as pairs of a name and a value. -/
abbrev HTTPHeaders := List (List Char × List Char)

/-- What the importer does to the outside, in the order done: the HTTP requests
it hands to `LLHTTPClient`, whose responders run later, and the calls of the
slots connected to its three signals. -/
inductive ImportEvent where
  /-- `LLHTTPClient::get(url, new LLImportGetResponder(), headers)`. -/
  | http_get (url : List Char) (headers : HTTPHeaders)
  /-- `LLHTTPClient::post(url, LLSD(), new LLImportPostResponder(), headers)`. -/
  | http_post (url : List Char) (headers : HTTPHeaders)
  /-- A slot of `mErrorInitSignal` called with a status and results. -/
  | error_init (slot : Nat) (status : Nat) (results : LLSD)
  /-- A slot of `mStatusChangedSignal` called with the in-progress flag. -/
  | status_changed (slot : Nat) (inProgress : Bool)
  /-- A slot of `mStatusReportSignal` called with a status and results. -/
  | status_report (slot : Nat) (status : Nat) (results : LLSD)
  deriving Repr, DecidableEq

/-- The state that the importer works on: the static variables of namespace
`LLMarketplaceImport`, the members of the `LLMarketplaceInventoryImporter`
singleton, and the events so far. A signal is `none` for a `NULL` pointer and
otherwise the list of its connected slots. -/
structure ImportWorld where
  /-- The static `sMarketplaceCookie`. -/
  sMarketplaceCookie : List Char
  /-- The static `sImportId`. -/
  sImportId : LLSD
  /-- The static `sImportInProgress`. -/
  sImportInProgress : Bool
  /-- The static `sImportPostPending`. -/
  sImportPostPending : Bool
  /-- The static `sImportGetPending`. -/
  sImportGetPending : Bool
  /-- The static `sImportResultStatus` (`U32`). -/
  sImportResultStatus : Nat
  /-- The static `sImportResults`. -/
  sImportResults : LLSD
  /-- The member `mAutoTriggerImport`. -/
  mAutoTriggerImport : Bool
  /-- The member `mImportInProgress`. -/
  mImportInProgress : Bool
  /-- The member `mInitialized`. -/
  mInitialized : Bool
  /-- The member `mErrorInitSignal`. -/
  mErrorInitSignal : Option (List Nat)
  /-- The member `mStatusChangedSignal`. -/
  mStatusChangedSignal : Option (List Nat)
  /-- The member `mStatusReportSignal`. -/
  mStatusReportSignal : Option (List Nat)
  /-- The events so far, oldest first. -/
  events : List ImportEvent
  deriving Repr, DecidableEq

namespace llmarketplacefunctions

end llmarketplacefunctions

namespace LLMarketplaceImport

/-- `bool inProgress() { return sImportInProgress; }` -/
def inProgress (w : ImportWorld) : Bool :=
  w.sImportInProgress

end LLMarketplaceImport

namespace LLMarketplaceInventoryImporter

end LLMarketplaceInventoryImporter

namespace AICurlPrivate

open curlthread

/-! ## Construction of the timeout object -/

/-- The constructor `HTTPTimeout(policy, lock_obj)`, whose initialiser list is
`mPolicy(policy), mNothingReceivedYet(true), mLowSpeedOn(false), mUploadFinished(false), mStalled((U64)-1)`.
The vector `mBuckets` is default constructed; `mBucket`, `mLastSecond`,
`mTotalBytes` and `mLowSpeedClock` are not initialised and are passed in as
whatever they hold. -/
def curlthread.HTTPTimeout.new (mBucket : Nat) (mLastSecond : Int)
    (mTotalBytes mLowSpeedClock : Nat) : HTTPTimeout :=
  { mBuckets := []
    mBucket := mBucket
    mNothingReceivedYet := true
    mLowSpeedOn := false
    mUploadFinished := false
    mLastSecond := mLastSecond
    mTotalBytes := mTotalBytes
    mLowSpeedClock := mLowSpeedClock
    mStalled := U64_MAX }

/-- `LLPointer<curlthread::HTTPTimeout>& httptimeout(void)`:
`if (!mTimeout) { create_timeout_object(); mTimeoutIsOrphan = true; } return mTimeout;`
The private member `create_timeout_object` is defined out of line and is passed
in. The result is the returned pointer and the request afterwards. -/
def CurlEasyRequest.httptimeout (create_timeout_object : CurlEasyRequest → CurlEasyRequest)
    (r : CurlEasyRequest) : Option HTTPTimeout × CurlEasyRequest :=
  let r1 :=
    match r.mTimeout with
    | none => { create_timeout_object r with mTimeoutIsOrphan := true }
    | some _ => r
  (r1.mTimeout, r1)

/-! ## Properties of the inline members -/

/-- C1: `has_stalled()` is true exactly when the clock count exceeds the stall
deadline, `mStalled < sClockCount`; with the clock at the deadline it is
false. -/
theorem C1_has_stalled_iff_deadline_passed (t : HTTPTimeout) (sClockCount : Nat) :
    (t.has_stalled sClockCount = true ↔ t.mStalled < sClockCount) ∧
      t.has_stalled t.mStalled = false := by
  simp [HTTPTimeout.has_stalled]

/-- C9: `no_warning()` is true exactly when the handle is queued for removal or
the application is exiting; after `remove_queued()` it is true whatever the
exiting flag is, and after a following `add_queued()` it equals the exiting
flag. -/
theorem C9_no_warning_queued_or_exiting (h : CurlEasyHandle) (isExiting : Bool) :
    (h.no_warning isExiting = true ↔ (h.mQueuedForRemoval = true ∨ isExiting = true)) ∧
      h.remove_queued.no_warning isExiting = true ∧
      h.remove_queued.add_queued.no_warning isExiting = isExiting := by
  simp [CurlEasyHandle.no_warning, CurlEasyHandle.remove_queued, CurlEasyHandle.add_queued]

/-- C10: `CurlEasyRequest::done(request, result)` first calls the timeout
administration with the result code, and only when a timeout object exists, and
afterwards calls `finished` exactly once, with or without a timeout object. -/
theorem C10_done_updates_timeout_then_finishes_once (r : CurlEasyRequest)
    (result : CURLcode) (log : List Call) :
    r.done result log =
        log ++ ((if r.mTimeout.isSome then [Call.timeout_done result] else []) ++
          [Call.finished]) ∧
      (r.done result []).count Call.finished = 1 ∧
      ((r.done result []).count (Call.timeout_done result) =
        if r.mTimeout.isSome then 1 else 0) ∧
      (r.done result []).getLast? = some Call.finished := by
  cases h : r.mTimeout <;> simp [CurlEasyRequest.done, h]

/-! ## Properties of the per-host queue -/

/-- C5: `tryAdmit` returns true and increments the active count by one when the
host is under its ceiling, leaving the pending queue alone; otherwise it returns
false, appends the request to the pending queue and leaves the active count
unchanged. The ceiling never changes. -/
theorem C5_tryAdmit_contract (q : PerHostQueue) (r : Request) :
    (q.tryAdmit r).1 = decide (q.active < q.ceiling) ∧
      (q.tryAdmit r).2.active = (if q.active < q.ceiling then q.active + 1 else q.active) ∧
      (q.tryAdmit r).2.pending =
        (if q.active < q.ceiling then q.pending else q.pending ++ [r]) ∧
      (q.tryAdmit r).2.ceiling = q.ceiling := by
  unfold PerHostQueue.tryAdmit
  split <;> simp [*]

theorem Driver.init_consistent (n : Nat) : (Driver.init n).consistent [] := by
  simp [Driver.consistent, Driver.init]

theorem Driver.add_easy_request_consistent (d : Driver) (subs : List Request)
    (r : Request) (h : d.consistent subs) :
    (d.add_easy_request r).consistent (subs ++ [r]) ∧
      (d.add_easy_request r).host.ceiling = d.host.ceiling := by
  obtain ⟨hlen, hle, hpend, hsub⟩ := h
  unfold Driver.add_easy_request PerHostQueue.tryAdmit
  by_cases hlt : d.host.active < d.host.ceiling
  · have hnil : d.host.pending = [] := by
      by_contra hne
      have := hpend hne
      omega
    simp only [hlt, if_true]
    refine ⟨⟨?_, ?_, ?_, ?_⟩, trivial⟩
    · simp [hlen]
    · simpa using hlt
    · intro hne
      exact absurd hnil hne
    · simp [← hsub, hnil]
  · simp only [hlt, if_false]
    refine ⟨⟨hlen, hle, ?_, ?_⟩, rfl⟩
    · intro _
      simpa using hlt
    · simp [← hsub]

theorem Driver.finish_easy_request_consistent (d : Driver) (subs : List Request)
    (r : Request) (h : d.consistent subs) :
    (d.finish_easy_request r).consistent subs ∧
      (d.finish_easy_request r).host.ceiling = d.host.ceiling := by
  obtain ⟨hlen, hle, hpend, hsub⟩ := h
  unfold Driver.finish_easy_request
  by_cases hmem : r ∈ d.activeSet
  · have hpos : 0 < d.activeSet.length := List.length_pos_of_mem hmem
    have herase : (d.activeSet.erase r).length = d.activeSet.length - 1 :=
      List.length_erase_of_mem hmem
    simp only [hmem, if_true]
    unfold PerHostQueue.onRequestFinished
    cases hp : d.host.pending with
    | nil =>
      refine ⟨⟨?_, ?_, ?_, ?_⟩, rfl⟩
      · simp [hp, herase, hlen]
      · simp [hp]; omega
      · simp [hp]
      · simp [hp, ← hsub]
    | cons r2 rest =>
      have hfull : d.host.ceiling ≤ d.host.active := hpend (by simp [hp])
      refine ⟨⟨?_, ?_, ?_, ?_⟩, rfl⟩
      · simp [hp, herase, hlen]
      · simp [hp]; omega
      · intro _
        simp [hp]; omega
      · simp [hp, ← hsub]
  · simp only [hmem, if_false]
    exact ⟨⟨hlen, hle, hpend, hsub⟩, trivial⟩

theorem Driver.run_consistent (evs : List DriverEvent) (d : Driver) (subs : List Request)
    (h : d.consistent subs) :
    (d.run evs).consistent (subs ++ submitted evs) ∧
      (d.run evs).host.ceiling = d.host.ceiling := by
  induction evs generalizing d subs with
  | nil => simpa [Driver.run, submitted] using h
  | cons e evs ih =>
    cases e with
    | submit r =>
      have hs := Driver.add_easy_request_consistent d subs r h
      have := ih (d.add_easy_request r) (subs ++ [r]) hs.1
      simpa [Driver.run, Driver.step, submitted, hs.2] using this
    | finish r =>
      have hs := Driver.finish_easy_request_consistent d subs r h
      have := ih (d.finish_easy_request r) subs hs.1
      simpa [Driver.run, Driver.step, submitted, hs.2] using this

/-- C2: for every sequence of submissions and completions of requests to a host
whose concurrency ceiling is `n`, the number of requests of that host that are
`Active` in the driver never exceeds `n`. -/
theorem C2_active_never_exceeds_ceiling (n : Nat) (evs : List DriverEvent) :
    ((Driver.init n).run evs).activeSet.length ≤ n ∧
      ((Driver.init n).run evs).host.active ≤ n := by
  have h := Driver.run_consistent evs (Driver.init n) [] (Driver.init_consistent n)
  obtain ⟨⟨hlen, hle, _, _⟩, hc⟩ := h
  have hn : (Driver.init n).host.ceiling = n := rfl
  rw [hn] at hc
  rw [hc] at hle
  exact ⟨by omega, hle⟩

theorem Driver.serving_after_submissions (R1 R2 R3 : Request) :
    (Driver.init 1).run
        [DriverEvent.submit R1, DriverEvent.submit R2, DriverEvent.submit R3] =
      Driver.serving R1 R2 R3 0 := by
  simp [Driver.run, Driver.step, Driver.init, Driver.add_easy_request,
    PerHostQueue.tryAdmit, Driver.serving]

theorem Driver.serving_finish (R1 R2 R3 : Request) (k : Nat) (r : Request) :
    ∃ k2, (Driver.serving R1 R2 R3 k).finish_easy_request r = Driver.serving R1 R2 R3 k2 := by
  rcases k with _ | _ | _ | k
  · by_cases h : r = R1
    · exact ⟨1, by
        subst h
        simp [Driver.serving, Driver.finish_easy_request, PerHostQueue.onRequestFinished]⟩
    · exact ⟨0, by
        simp [Driver.serving, Driver.finish_easy_request, h]⟩
  · by_cases h : r = R2
    · exact ⟨2, by
        subst h
        simp [Driver.serving, Driver.finish_easy_request, PerHostQueue.onRequestFinished]⟩
    · exact ⟨1, by
        simp [Driver.serving, Driver.finish_easy_request, h]⟩
  · by_cases h : r = R3
    · exact ⟨3, by
        subst h
        simp [Driver.serving, Driver.finish_easy_request, PerHostQueue.onRequestFinished]⟩
    · exact ⟨2, by
        simp [Driver.serving, Driver.finish_easy_request, h]⟩
  · exact ⟨k + 3, by
      simp [Driver.serving, Driver.finish_easy_request]⟩

theorem Driver.serving_run (R1 R2 R3 : Request) (fs : List Request) (k : Nat) :
    ∃ k2, (Driver.serving R1 R2 R3 k).run (fs.map DriverEvent.finish) =
      Driver.serving R1 R2 R3 k2 := by
  induction fs generalizing k with
  | nil => exact ⟨k, rfl⟩
  | cons r fs ih =>
    obtain ⟨k1, h1⟩ := Driver.serving_finish R1 R2 R3 k r
    obtain ⟨k2, h2⟩ := ih k1
    refine ⟨k2, ?_⟩
    rw [← h2, ← h1]
    simp [Driver.run, Driver.step]

theorem Driver.serving_completed_prefix (R1 R2 R3 : Request) (k : Nat) :
    (Driver.serving R1 R2 R3 k).completed <+: [R1, R2, R3] := by
  rcases k with _ | _ | _ | k
  · simp [Driver.serving]
  · exact ⟨[R2, R3], by simp [Driver.serving]⟩
  · exact ⟨[R3], by simp [Driver.serving]⟩
  · simp [Driver.serving]

theorem Driver.run_append (d : Driver) (xs ys : List DriverEvent) :
    d.run (xs ++ ys) = (d.run xs).run ys := by
  simp [Driver.run, List.foldl_append]

/-- C4: pending requests of one host are admitted strictly in FIFO order. When a
request finishes and the pending queue is `r :: rest`, the request admitted
next is `r`, the one enqueued earliest; over every run of the driver the
requests admitted so far followed by those still pending are the submitted
requests in submission order; and `R1`, `R2`, `R3` submitted to a host with
ceiling 1 complete in the order `R1`, `R2`, `R3`: whatever the native engine
reports, the completions form a prefix of that order, and reporting the
three transfers completes all three. -/
theorem C4_pending_admitted_in_fifo_order (n c a : Nat) (r R1 R2 R3 : Request)
    (rest fs : List Request) (evs : List DriverEvent) :
    PerHostQueue.onRequestFinished { ceiling := c, active := a, pending := r :: rest } =
        (some r, { ceiling := c, active := a - 1 + 1, pending := rest }) ∧
      ((Driver.init n).run evs).admitted ++ ((Driver.init n).run evs).host.pending =
        submitted evs ∧
      ((Driver.init 1).run
          ([DriverEvent.submit R1, DriverEvent.submit R2, DriverEvent.submit R3] ++
            fs.map DriverEvent.finish)).completed <+: [R1, R2, R3] ∧
      ((Driver.init 1).run
          [DriverEvent.submit R1, DriverEvent.submit R2, DriverEvent.submit R3,
            DriverEvent.finish R1, DriverEvent.finish R2, DriverEvent.finish R3]).completed =
        [R1, R2, R3] := by
  refine ⟨by simp [PerHostQueue.onRequestFinished], ?_, ?_, ?_⟩
  · have h := (Driver.run_consistent evs (Driver.init n) [] (Driver.init_consistent n)).1
    simpa using h.2.2.2
  · rw [Driver.run_append, Driver.serving_after_submissions]
    obtain ⟨k2, h2⟩ := Driver.serving_run R1 R2 R3 fs 0
    rw [h2]
    exact Driver.serving_completed_prefix R1 R2 R3 k2
  · simp [Driver.run, Driver.step, Driver.init, Driver.add_easy_request,
      Driver.finish_easy_request, PerHostQueue.tryAdmit, PerHostQueue.onRequestFinished]

/-! ## Properties of the reference count -/

theorem intrusive_ptr_add_ref_iterate (p : ThreadSafeBufferedCurlEasyRequest) (n : Nat) :
    (intrusive_ptr_add_ref^[n] p).mReferenceCount = (p.mReferenceCount + n) % U32_MOD ∨
        n = 0 ∧ (intrusive_ptr_add_ref^[n] p).mReferenceCount = p.mReferenceCount := by
  induction n with
  | zero => exact Or.inr ⟨rfl, rfl⟩
  | succ n ih =>
    left
    rw [Function.iterate_succ_apply']
    simp only [intrusive_ptr_add_ref, U32_MOD] at ih ⊢
    rcases ih with h | ⟨h0, h⟩
    · rw [h]; omega
    · rw [h, h0]

theorem intrusive_ptr_add_ref_iterate_destroyed (p : ThreadSafeBufferedCurlEasyRequest)
    (n : Nat) : (intrusive_ptr_add_ref^[n] p).destroyed = p.destroyed := by
  induction n with
  | zero => rfl
  | succ n ih =>
    rw [Function.iterate_succ_apply']
    simpa [intrusive_ptr_add_ref] using ih

theorem intrusive_ptr_release_iterate (p : ThreadSafeBufferedCurlEasyRequest) (k : Nat)
    (hc : p.mReferenceCount < U32_MOD) (hk : k < p.mReferenceCount) :
    (intrusive_ptr_release^[k] p).mReferenceCount = p.mReferenceCount - k ∧
      (intrusive_ptr_release^[k] p).destroyed = p.destroyed := by
  induction k with
  | zero => exact ⟨rfl, rfl⟩
  | succ k ih =>
    obtain ⟨h1, h2⟩ := ih (by omega)
    rw [Function.iterate_succ_apply']
    simp only [U32_MOD] at hc
    have hne : (p.mReferenceCount - k + 4294967296 - 1) % 4294967296 ≠ 0 := by omega
    simp only [intrusive_ptr_release, U32_MOD, h1, h2, hne, if_false]
    constructor
    · omega
    · trivial

/-- C6: a `ThreadSafeBufferedCurlEasyRequest` starts with reference count 0;
after creating `N` shared handles to it, releasing fewer than `N` of them
leaves the wrapped object alive, and releasing all `N` destroys it exactly
once, the count being back at zero. `N` ranges over the values of the 32-bit
counter. -/
theorem C6_last_release_destroys_once (N k : Nat) (hN : N < U32_MOD) (hk : k < N) :
    ThreadSafeBufferedCurlEasyRequest.new.mReferenceCount = 0 ∧
      (intrusive_ptr_add_ref^[N] ThreadSafeBufferedCurlEasyRequest.new).mReferenceCount = N ∧
      (intrusive_ptr_release^[k]
        (intrusive_ptr_add_ref^[N] ThreadSafeBufferedCurlEasyRequest.new)).destroyed = 0 ∧
      (intrusive_ptr_release^[N]
        (intrusive_ptr_add_ref^[N] ThreadSafeBufferedCurlEasyRequest.new)).destroyed = 1 ∧
      (intrusive_ptr_release^[N]
        (intrusive_ptr_add_ref^[N] ThreadSafeBufferedCurlEasyRequest.new)).mReferenceCount = 0 := by
  have hcount : (intrusive_ptr_add_ref^[N] ThreadSafeBufferedCurlEasyRequest.new).mReferenceCount
      = N := by
    rcases intrusive_ptr_add_ref_iterate ThreadSafeBufferedCurlEasyRequest.new N with
      h | ⟨h0, _⟩
    · rw [h]
      simp only [ThreadSafeBufferedCurlEasyRequest.new, U32_MOD] at hN ⊢
      omega
    · omega
  have hdes := intrusive_ptr_add_ref_iterate_destroyed ThreadSafeBufferedCurlEasyRequest.new N
  have hrel : ∀ j, j < N →
      (intrusive_ptr_release^[j]
        (intrusive_ptr_add_ref^[N] ThreadSafeBufferedCurlEasyRequest.new)).mReferenceCount
          = N - j ∧
      (intrusive_ptr_release^[j]
        (intrusive_ptr_add_ref^[N] ThreadSafeBufferedCurlEasyRequest.new)).destroyed = 0 := by
    intro j hj
    have h := intrusive_ptr_release_iterate
      (intrusive_ptr_add_ref^[N] ThreadSafeBufferedCurlEasyRequest.new) j
      (by rw [hcount]; exact hN) (by rw [hcount]; exact hj)
    rw [hcount, hdes] at h
    exact ⟨h.1, h.2⟩
  obtain ⟨m, rfl⟩ : ∃ m, N = m + 1 := ⟨N - 1, by omega⟩
  obtain ⟨hl1, hl2⟩ := hrel m (by omega)
  have hlast : (m + 1 - m + U32_MOD - 1) % U32_MOD = 0 := by
    simp only [U32_MOD]; omega
  refine ⟨rfl, hcount, (hrel k hk).2, ?_, ?_⟩
  · rw [Function.iterate_succ_apply']
    simp only [intrusive_ptr_release, hl1, hl2, hlast, if_true]
  · rw [Function.iterate_succ_apply']
    simp only [intrusive_ptr_release, hl1, hl2, hlast, if_true]

/-- Witness of C6: three shared handles, two of them released, then all three. -/
theorem C6_last_release_destroys_once_witness :
    3 < U32_MOD ∧ 2 < 3 ∧
      (intrusive_ptr_release^[2]
        (intrusive_ptr_add_ref^[3] ThreadSafeBufferedCurlEasyRequest.new)).destroyed = 0 ∧
      (intrusive_ptr_release^[3]
        (intrusive_ptr_add_ref^[3] ThreadSafeBufferedCurlEasyRequest.new)).destroyed = 1 :=
  ⟨by decide, by decide,
    (C6_last_release_destroys_once 3 2 (by decide) (by decide)).2.2.1,
    (C6_last_release_destroys_once 3 2 (by decide) (by decide)).2.2.2.1⟩

/-! ## Properties of the byte-rate window -/

/-- C11: for every result code, `check_easy_code` and `check_multi_code` return
the code they were given, call the error handler exactly when the code is not
`CURLE_OK`, respectively `CURLM_OK`, and add one to `easy_calls`, respectively
`multi_calls`, on every call, leaving the other counter alone. -/
theorem C11_check_code_returns_code_and_counts (ecode : CURLcode) (mcode : CURLMcode)
    (w : CurlStats) :
    ((CurlEasyHandle.check_easy_code ecode w).1 = ecode ∧
        (CurlEasyHandle.check_easy_code ecode w).2.easy_calls = w.easy_calls + 1 ∧
        (CurlEasyHandle.check_easy_code ecode w).2.multi_calls = w.multi_calls ∧
        (CurlEasyHandle.check_easy_code ecode w).2.handled =
          w.handled ++ (if ecode = CURLE_OK then [] else [HandlerCall.handle_easy_error ecode])) ∧
      ((check_multi_code mcode w).1 = mcode ∧
        (check_multi_code mcode w).2.multi_calls = w.multi_calls + 1 ∧
        (check_multi_code mcode w).2.easy_calls = w.easy_calls ∧
        (check_multi_code mcode w).2.handled =
          w.handled ++ (if mcode = CURLM_OK then [] else [HandlerCall.handle_multi_error mcode])) := by
  constructor
  · by_cases h : ecode = CURLE_OK <;> simp [CurlEasyHandle.check_easy_code, h]
  · by_cases h : mcode = CURLM_OK <;> simp [check_multi_code, h]

/-- C12: `CurlEasyRequest::has_stalled()` is true exactly when the request has
a timeout object whose `has_stalled()` is true; without a timeout object it is
false at every clock count; and the request, its `mTimeout` included, is left
as it was, so no timeout object is created. -/
theorem C12_request_has_stalled_iff_timeout_stalled (r : CurlEasyRequest)
    (sClockCount : Nat) :
    ((r.has_stalled sClockCount).1 = true ↔
        ∃ t, r.mTimeout = some t ∧ t.has_stalled sClockCount = true) ∧
      (CurlEasyRequest.has_stalled { r with mTimeout := none } sClockCount).1 = false ∧
      (r.has_stalled sClockCount).2 = r ∧
      (r.has_stalled sClockCount).2.mTimeout = r.mTimeout := by
  cases h : r.mTimeout <;> simp [CurlEasyRequest.has_stalled, h]

/-- C13: `isValid()` is true exactly when a responder is attached and false on
an object without responder; after `prepRequest` it is true, the responder
passed being one, and `timed_out()` makes it false. -/
theorem C13_isValid_iff_responder_attached (b : BufferedCurlEasyRequest) (responder : Nat) :
    (b.isValid = true ↔ b.mResponder ≠ 0) ∧
      BufferedCurlEasyRequest.isValid { b with mResponder := 0 } = false ∧
      ((b.prepRequest responder).isValid = true ↔ responder ≠ 0) ∧
      b.timed_out.isValid = false ∧
      (b.prepRequest responder).timed_out.isValid = false := by
  simp [BufferedCurlEasyRequest.isValid, BufferedCurlEasyRequest.prepRequest,
    BufferedCurlEasyRequest.timed_out]

/-- C14: each `CurlMultiHandle::setopt` overload asserts that the option has the
type of its parameter: with the assertion compiled in, the call gets past it
exactly for `CURLMOPT_MAXCONNECTS` and `CURLMOPT_PIPELINING` (long),
`CURLMOPT_SOCKETFUNCTION` (socket callback), `CURLMOPT_TIMERFUNCTION` (timer
callback), `CURLMOPT_SOCKETDATA` and `CURLMOPT_TIMERDATA` (object pointer); and
whenever the call gets past the assertion it returns the code of the native
call. -/
theorem C14_multi_setopt_asserts_option_type (SHOW_ASSERT : Bool)
    (curl_multi_setopt : NativeMultiSetopt) (m : CurlMultiHandle) (option : CURLMoption)
    (l : Int) (p : Nat) (w : CurlStats) :
    ((m.setopt_long SHOW_ASSERT curl_multi_setopt option l w).map Prod.fst =
        if SHOW_ASSERT = true ∧ ¬(option = CURLMoption.CURLMOPT_MAXCONNECTS ∨
            option = CURLMoption.CURLMOPT_PIPELINING) then none
        else some (curl_multi_setopt m.mMultiHandle option (MultiParam.long l))) ∧
      ((m.setopt_socket_callback SHOW_ASSERT curl_multi_setopt option p w).map Prod.fst =
        if SHOW_ASSERT = true ∧ ¬(option = CURLMoption.CURLMOPT_SOCKETFUNCTION) then none
        else some (curl_multi_setopt m.mMultiHandle option (MultiParam.socket_callback p))) ∧
      ((m.setopt_timer_callback SHOW_ASSERT curl_multi_setopt option p w).map Prod.fst =
        if SHOW_ASSERT = true ∧ ¬(option = CURLMoption.CURLMOPT_TIMERFUNCTION) then none
        else some (curl_multi_setopt m.mMultiHandle option (MultiParam.timer_callback p))) ∧
      ((m.setopt_object SHOW_ASSERT curl_multi_setopt option p w).map Prod.fst =
        if SHOW_ASSERT = true ∧ ¬(option = CURLMoption.CURLMOPT_SOCKETDATA ∨
            option = CURLMoption.CURLMOPT_TIMERDATA) then none
        else some (curl_multi_setopt m.mMultiHandle option (MultiParam.object p))) := by
  refine ⟨?_, ?_, ?_, ?_⟩
  · cases SHOW_ASSERT <;> cases option <;>
      simp [CurlMultiHandle.setopt_long, llassert, check_multi_code]
  · cases SHOW_ASSERT <;> cases option <;>
      simp [CurlMultiHandle.setopt_socket_callback, llassert, check_multi_code]
  · cases SHOW_ASSERT <;> cases option <;>
      simp [CurlMultiHandle.setopt_timer_callback, llassert, check_multi_code]
  · cases SHOW_ASSERT <;> cases option <;>
      simp [CurlMultiHandle.setopt_object, llassert, check_multi_code]

/-! ## Properties of the integer conversions -/

theorem signed_cast_of_fits (bits : Nat) (v : Int) (hb : 0 < bits)
    (hlo : -(2 ^ (bits - 1)) ≤ v) (hhi : v < 2 ^ (bits - 1)) : signed_cast bits v = v := by
  unfold signed_cast
  have hpow : (2 : Int) ^ bits = 2 * 2 ^ (bits - 1) := by
    obtain ⟨k, rfl⟩ : ∃ k, bits = k + 1 := ⟨bits - 1, by omega⟩
    simp [pow_succ, mul_comm]
  rw [Int.emod_eq_of_lt (by omega) (by omega)]
  omega

/-- C15: `setopt(option, v)` for a `U32` or `S32` value `v` is the call
`setopt(option, (long)v)` and returns its result, whatever the width of `long`;
with a 64-bit `long` the forwarded value is `v` itself. -/
theorem C15_setopt_int_forwards_as_long {σ : Type}
    (setopt_long : CURLoption → Int → σ → CURLcode × σ) (LONG_BITS : Nat)
    (option : CURLoption) (s : σ) (u : Nat) (i : Int)
    (hu : u < 2 ^ 32) (hlo : -(2 ^ 31) ≤ i) (hhi : i < 2 ^ 31) :
    (CurlEasyHandle.setopt_U32 LONG_BITS setopt_long option u s =
        setopt_long option (signed_cast LONG_BITS (u : Int)) s ∧
      CurlEasyHandle.setopt_S32 LONG_BITS setopt_long option i s =
        setopt_long option (signed_cast LONG_BITS i) s) ∧
      (signed_cast 64 (u : Int) = (u : Int) ∧ signed_cast 64 i = i) ∧
      (CurlEasyHandle.setopt_U32 64 setopt_long option u s = setopt_long option (u : Int) s ∧
        CurlEasyHandle.setopt_S32 64 setopt_long option i s = setopt_long option i s) := by
  have h1 : signed_cast 64 (u : Int) = (u : Int) :=
    signed_cast_of_fits 64 (u : Int) (by decide) (by norm_num; omega) (by norm_num; omega)
  have h2 : signed_cast 64 i = i :=
    signed_cast_of_fits 64 i (by decide) (by norm_num at hlo ⊢; omega)
      (by norm_num at hhi ⊢; omega)
  refine ⟨⟨rfl, rfl⟩, ⟨h1, h2⟩, ?_, ?_⟩
  · simp [CurlEasyHandle.setopt_U32, h1]
  · simp [CurlEasyHandle.setopt_S32, h2]

/-- Witness of C15: the largest `U32` and the smallest `S32` are forwarded
unchanged as a 64-bit `long`. -/
theorem C15_setopt_int_forwards_as_long_witness :
    (4294967295 : Nat) < 2 ^ 32 ∧ -(2 ^ 31) ≤ (-2147483648 : Int) ∧
      (-2147483648 : Int) < 2 ^ 31 ∧
      signed_cast 64 ((4294967295 : Nat) : Int) = ((4294967295 : Nat) : Int) ∧
      signed_cast 64 (-2147483648) = -2147483648 :=
  ⟨by norm_num, by norm_num, by norm_num,
    (C15_setopt_int_forwards_as_long (fun _ v (s : Nat) => (if v < 0 then 43 else 0, s + 1))
      64 0 0 4294967295 (-2147483648) (by norm_num) (by norm_num) (by norm_num)).2.1⟩

theorem signed_cast_32_reduces (l : Int) :
    (signed_cast 32 l - l) % 2 ^ 32 = 0 ∧ -(2 ^ 31) ≤ signed_cast 32 l ∧
      signed_cast 32 l < 2 ^ 31 := by
  unfold signed_cast
  norm_num
  omega

theorem unsigned_cast_32_reduces (l : Int) :
    ((unsigned_cast 32 l : Nat) : Int) = l % 2 ^ 32 ∧ unsigned_cast 32 l < 2 ^ 32 := by
  unfold unsigned_cast
  have hnn : (0 : Int) ≤ l % 2 ^ 32 := Int.emod_nonneg _ (by norm_num)
  have hlt : l % 2 ^ 32 < 2 ^ 32 := Int.emod_lt_of_pos _ (by norm_num)
  constructor
  · exact Int.toNat_of_nonneg hnn
  · have : ((l % 2 ^ 32).toNat : Int) < ((2 ^ 32 : Nat) : Int) := by
      rw [Int.toNat_of_nonneg hnn]
      exact_mod_cast hlt
    exact_mod_cast this

/-- C16: on LP64, `getinfo` with an `S32*` or `U32*` destination returns the
result code of the `long` query unchanged and stores the queried `long` reduced
to 32 bits: for `U32` its value modulo `2 ^ 32`, for `S32` the value in the
`S32` range that differs from it by a multiple of `2 ^ 32`. Whenever the `long`
fits the destination type, the stored value equals it. -/
theorem C16_getinfo_reduces_long_to_32_bits {σ : Type}
    (getinfo_priv : CURLINFO → σ → CURLcode × Int) (info : CURLINFO) (s : σ) :
    ((CurlEasyHandle.getinfo_S32 getinfo_priv info s).1 = (getinfo_priv info s).1 ∧
        (CurlEasyHandle.getinfo_U32 getinfo_priv info s).1 = (getinfo_priv info s).1) ∧
      (((CurlEasyHandle.getinfo_U32 getinfo_priv info s).2 : Int) =
          (getinfo_priv info s).2 % 2 ^ 32 ∧
        (CurlEasyHandle.getinfo_U32 getinfo_priv info s).2 < 2 ^ 32) ∧
      (((CurlEasyHandle.getinfo_S32 getinfo_priv info s).2 - (getinfo_priv info s).2) % 2 ^ 32
          = 0 ∧
        -(2 ^ 31) ≤ (CurlEasyHandle.getinfo_S32 getinfo_priv info s).2 ∧
        (CurlEasyHandle.getinfo_S32 getinfo_priv info s).2 < 2 ^ 31) ∧
      (-(2 ^ 31) ≤ (getinfo_priv info s).2 → (getinfo_priv info s).2 < 2 ^ 31 →
        (CurlEasyHandle.getinfo_S32 getinfo_priv info s).2 = (getinfo_priv info s).2) ∧
      (0 ≤ (getinfo_priv info s).2 → (getinfo_priv info s).2 < 2 ^ 32 →
        ((CurlEasyHandle.getinfo_U32 getinfo_priv info s).2 : Int) = (getinfo_priv info s).2) := by
  have hS := signed_cast_32_reduces (getinfo_priv info s).2
  have hU := unsigned_cast_32_reduces (getinfo_priv info s).2
  refine ⟨⟨rfl, rfl⟩, hU, hS, ?_, ?_⟩
  · intro h1 h2
    exact signed_cast_of_fits 32 _ (by decide) (by norm_num at h1 ⊢; omega)
      (by norm_num at h2 ⊢; omega)
  · intro h1 h2
    have h := hU.1
    simp only [CurlEasyHandle.getinfo_U32] at h ⊢
    rw [h]
    exact Int.emod_eq_of_lt h1 h2

/-- Witness of C16: a query that yields the `long` value `-1` stores `-1` as
`S32`, and one that yields `4294967295` stores it as `U32`. -/
theorem C16_getinfo_reduces_long_to_32_bits_witness :
    (CurlEasyHandle.getinfo_S32 (fun _ (_ : Unit) => ((0 : CURLcode), (-1 : Int))) 0 ()).2 = -1 ∧
      ((CurlEasyHandle.getinfo_U32
        (fun _ (_ : Unit) => ((0 : CURLcode), (4294967295 : Int))) 0 ()).2 : Int) = 4294967295 :=
  ⟨(C16_getinfo_reduces_long_to_32_bits
      (fun _ (_ : Unit) => ((0 : CURLcode), (-1 : Int))) 0 ()).2.2.2.1
      (by norm_num) (by norm_num),
    (C16_getinfo_reduces_long_to_32_bits
      (fun _ (_ : Unit) => ((0 : CURLcode), (4294967295 : Int))) 0 ()).2.2.2.2
      (by norm_num) (by norm_num)⟩

/-! ## Properties of the timeout object of a request -/

/-- C21: `CurlEasyRequest::httptimeout()` creates a timeout object and marks it
orphan only when the request has none; when a timeout object exists it returns
that object and leaves the request, `mTimeoutIsOrphan` included, as it was; so a
second call has the same result and effect as the first alone.
`create_timeout_object` is any function that leaves `mTimeout` set. -/
theorem C21_httptimeout_creates_once (create_timeout_object : CurlEasyRequest → CurlEasyRequest)
    (hcreate : ∀ r, (create_timeout_object r).mTimeout ≠ none) (r : CurlEasyRequest)
    (t : HTTPTimeout) :
    CurlEasyRequest.httptimeout create_timeout_object { r with mTimeout := some t } =
        (some t, { r with mTimeout := some t }) ∧
      CurlEasyRequest.httptimeout create_timeout_object { r with mTimeout := none } =
        ((create_timeout_object { r with mTimeout := none }).mTimeout,
          { create_timeout_object { r with mTimeout := none } with mTimeoutIsOrphan := true }) ∧
      (r.httptimeout create_timeout_object).1 ≠ none ∧
      (r.httptimeout create_timeout_object).1 = (r.httptimeout create_timeout_object).2.mTimeout ∧
      (r.httptimeout create_timeout_object).2.httptimeout create_timeout_object =
        r.httptimeout create_timeout_object := by
  refine ⟨rfl, rfl, ?_, rfl, ?_⟩
  · cases h : r.mTimeout with
    | none => simpa [CurlEasyRequest.httptimeout, h] using hcreate r
    | some t0 => simp [CurlEasyRequest.httptimeout, h]
  · cases h : r.mTimeout with
    | none =>
      obtain ⟨t1, ht1⟩ := Option.ne_none_iff_exists'.mp (hcreate r)
      simp [CurlEasyRequest.httptimeout, h, ht1]
    | some t0 => simp [CurlEasyRequest.httptimeout, h]

/-- Witness of C21: a request without timeout object, with a
`create_timeout_object` that constructs a new `HTTPTimeout`. -/
theorem C21_httptimeout_creates_once_witness :
    (∀ r : CurlEasyRequest,
        ({ r with mTimeout := some (HTTPTimeout.new 0 0 0 0) } : CurlEasyRequest).mTimeout ≠
          none) ∧
      (CurlEasyRequest.httptimeout
          (fun r => { r with mTimeout := some (HTTPTimeout.new 0 0 0 0) })
          { handle := { mEasyHandle := 1, mActiveMultiHandle := 0, mQueuedForRemoval := false }
            mResult := 2, mTimeoutPolicy := 0, mTimeout := none,
            mTimeoutIsOrphan := false }).2.mTimeoutIsOrphan = true ∧
      (CurlEasyRequest.httptimeout
          (fun r => { r with mTimeout := some (HTTPTimeout.new 0 0 0 0) })
          { handle := { mEasyHandle := 1, mActiveMultiHandle := 0, mQueuedForRemoval := false }
            mResult := 2, mTimeoutPolicy := 0, mTimeout := none,
            mTimeoutIsOrphan := false }).1 ≠ none :=
  ⟨fun _ => by simp, by decide,
    (C21_httptimeout_creates_once
      (fun r => { r with mTimeout := some (HTTPTimeout.new 0 0 0 0) }) (fun _ => by simp)
      { handle := { mEasyHandle := 1, mActiveMultiHandle := 0, mQueuedForRemoval := false }
        mResult := 2, mTimeoutPolicy := 0, mTimeout := none, mTimeoutIsOrphan := false }
      (HTTPTimeout.new 0 0 0 0)).2.2.1⟩

/-- C23: a freshly constructed `HTTPTimeout` has its stall deadline at the
largest `U64` value, so `has_stalled()` is false at every clock count, and stays
false for as long as the deadline is not lowered; it starts with
nothing-received-yet set and with low speed detection and upload-finished
cleared. -/
theorem C23_new_timeout_has_not_stalled (mBucket : Nat) (mLastSecond : Int)
    (mTotalBytes mLowSpeedClock sClockCount : Nat) (t : HTTPTimeout)
    (hclock : sClockCount ≤ U64_MAX)
    (ht : t.mStalled = (HTTPTimeout.new mBucket mLastSecond mTotalBytes mLowSpeedClock).mStalled) :
    (HTTPTimeout.new mBucket mLastSecond mTotalBytes mLowSpeedClock).mStalled = 2 ^ 64 - 1 ∧
      (HTTPTimeout.new mBucket mLastSecond mTotalBytes mLowSpeedClock).has_stalled sClockCount =
        false ∧
      t.has_stalled sClockCount = false ∧
      (HTTPTimeout.new mBucket mLastSecond mTotalBytes mLowSpeedClock).mNothingReceivedYet = true ∧
      (HTTPTimeout.new mBucket mLastSecond mTotalBytes mLowSpeedClock).mLowSpeedOn = false ∧
      (HTTPTimeout.new mBucket mLastSecond mTotalBytes mLowSpeedClock).mUploadFinished = false := by
  have hmax : U64_MAX = 2 ^ 64 - 1 := by decide
  refine ⟨by simp [HTTPTimeout.new, hmax], ?_, ?_, rfl, rfl, rfl⟩
  · simp only [HTTPTimeout.has_stalled, HTTPTimeout.new, decide_eq_false_iff_not]
    omega
  · simp only [HTTPTimeout.has_stalled, ht, HTTPTimeout.new, decide_eq_false_iff_not]
    omega

/-- Witness of C23: the clock at the largest `U64` value. -/
theorem C23_new_timeout_has_not_stalled_witness :
    U64_MAX ≤ U64_MAX ∧
      (HTTPTimeout.new 7 (-3) 99 5).has_stalled U64_MAX = false :=
  ⟨le_refl _,
    (C23_new_timeout_has_not_stalled 7 (-3) 99 5 U64_MAX (HTTPTimeout.new 7 (-3) 99 5)
      (le_refl _) rfl).2.1⟩

end AICurlPrivate

/-! # Properties of the marketplace helpers -/

namespace llmarketplacefunctions

theorem getLoginUriDomain_eq (hostName : List Char) :
    getLoginUriDomain hostName =
      some (if "login.".toList <+: hostName then hostName.drop 6 else hostName) := by
  have hl : "login.".toList = ['l', 'o', 'g', 'i', 'n', '.'] := rfl
  unfold getLoginUriDomain substr substr_from
  simp only [Nat.zero_le, if_true, List.drop_zero, Option.some_bind]
  by_cases hp : "login.".toList <+: hostName
  · obtain ⟨rest, rfl⟩ := hp
    simp [hl]
  · have hne : List.take 6 hostName ≠ "login.".toList := by
      intro heq
      apply hp
      refine ⟨hostName.drop 6, ?_⟩
      rw [← heq]
      exact List.take_append_drop 6 hostName
    rw [hl] at hne hp
    simp [hne, hp]

/-- C17: `getLoginUriDomain` returns the host name of the login URI with a
leading "login." stripped off: for a host name `"login." ++ rest` it returns
`rest`, and a host name that does not begin with "login." is returned
unchanged. -/
theorem C17_getLoginUriDomain_strips_login_prefix (rest hostName : List Char)
    (h : ¬ "login.".toList <+: hostName) :
    getLoginUriDomain ("login.".toList ++ rest) = some rest ∧
      getLoginUriDomain hostName = some hostName := by
  constructor
  · rw [getLoginUriDomain_eq]
    have hl : "login.".toList = ['l', 'o', 'g', 'i', 'n', '.'] := rfl
    simp [hl]
  · rw [getLoginUriDomain_eq, if_neg h]

/-- Witness of C17: "example.com" does not begin with "login." and is returned
as it is, and "login.aditi.lindenlab.com" loses its prefix. -/
theorem C17_getLoginUriDomain_strips_login_prefix_witness :
    ¬ "login.".toList <+: "example.com".toList ∧
      getLoginUriDomain ("login.".toList ++ "aditi.lindenlab.com".toList) =
        some "aditi.lindenlab.com".toList ∧
      getLoginUriDomain "example.com".toList = some "example.com".toList :=
  ⟨by decide,
    C17_getLoginUriDomain_strips_login_prefix "aditi.lindenlab.com".toList
      "example.com".toList (by decide)⟩

theorem lindenlab_assertion_holds (SHOW_ASSERT : Bool) (domain : List Char)
    (h : SHOW_ASSERT = false ∨
      (14 < domain.length ∧ ".lindenlab.com".toList <:+ domain)) :
    llassert SHOW_ASSERT
      (decide (domain.length > 14) &&
        (substr_from domain (domain.length - 14) == some ".lindenlab.com".toList)) =
      some () := by
  rcases h with h | ⟨hlen, hsuf⟩
  · simp [llassert, h]
  · have hdrop : List.drop (domain.length - 14) domain = ".lindenlab.com".toList := by
      have h14 : ".lindenlab.com".toList.length = 14 := by decide
      have := List.suffix_iff_eq_drop.mp hsuf
      rw [h14] at this
      exact this.symm
    have hsub : substr_from domain (domain.length - 14) = some ".lindenlab.com".toList := by
      unfold substr_from
      rw [if_pos (by omega), hdrop]
    rw [hsub]
    simp [llassert, hlen]

theorem lindenlab_assertion_eq (SHOW_ASSERT : Bool) (domain : List Char) :
    llassert SHOW_ASSERT
      (decide (domain.length > 14) &&
        (substr_from domain (domain.length - 14) == some ".lindenlab.com".toList)) =
      if SHOW_ASSERT = true ∧
          ¬(14 < domain.length ∧ ".lindenlab.com".toList <:+ domain) then none
      else some () := by
  by_cases hform : 14 < domain.length ∧ ".lindenlab.com".toList <:+ domain
  · rw [lindenlab_assertion_holds SHOW_ASSERT domain (Or.inr hform),
      if_neg (fun h => h.2 hform)]
  · cases SHOW_ASSERT
    · rw [if_neg (fun h => Bool.false_ne_true h.1)]
      rfl
    · have hcond : (decide (domain.length > 14) &&
          (substr_from domain (domain.length - 14) == some ".lindenlab.com".toList)) =
            false := by
        by_contra hne
        have ht : (decide (domain.length > 14) &&
            (substr_from domain (domain.length - 14) == some ".lindenlab.com".toList)) =
              true := by
          simpa using hne
        rw [Bool.and_eq_true] at ht
        obtain ⟨hlen, hsub⟩ := ht
        have hlen14 : 14 < domain.length := by simpa using hlen
        have hsub2 : substr_from domain (domain.length - 14) =
            some ".lindenlab.com".toList := by simpa using hsub
        unfold substr_from at hsub2
        rw [if_pos (by omega)] at hsub2
        have hdrop : List.drop (domain.length - 14) domain = ".lindenlab.com".toList :=
          Option.some.inj hsub2
        apply hform
        refine ⟨hlen14, ?_⟩
        rw [← hdrop]
        exact List.drop_suffix _ _
      rw [hcond, if_pos ⟨rfl, hform⟩]
      rfl

theorem getMarketplaceDomain_eq (SHOW_ASSERT : Bool)
    (utf8str_tolower : List Char → List Char) (isSecondLife isInProductionGrid : Bool)
    (hostName loginUriDomain : List Char)
    (hdom : getLoginUriDomain hostName = some loginUriDomain) :
    getMarketplaceDomain SHOW_ASSERT utf8str_tolower isSecondLife isInProductionGrid hostName =
      if isSecondLife = true ∧ isInProductionGrid = false ∧ SHOW_ASSERT = true ∧
          ¬(14 < (utf8str_tolower loginUriDomain).length ∧
            ".lindenlab.com".toList <:+ utf8str_tolower loginUriDomain) then
        none
      else
        some
          (if isSecondLife = true then
            if isInProductionGrid = true then "secondlife.com".toList
            else if utf8str_tolower loginUriDomain = "damballah.lindenlab.com".toList then
              "secondlife-staging.com".toList
            else utf8str_tolower loginUriDomain
          else loginUriDomain) := by
  unfold getMarketplaceDomain
  cases isSecondLife
  · simpa using hdom
  · cases isInProductionGrid
    · have ha := lindenlab_assertion_eq SHOW_ASSERT (utf8str_tolower loginUriDomain)
      simp only [hdom, Option.some_bind, ha, if_true, Bool.false_eq_true, if_false, true_and]
      by_cases hab : SHOW_ASSERT = true ∧
          ¬(14 < (utf8str_tolower loginUriDomain).length ∧
            ".lindenlab.com".toList <:+ utf8str_tolower loginUriDomain)
      · rw [if_pos hab, if_pos hab]
        rfl
      · rw [if_neg hab, if_neg hab]
        by_cases hd : utf8str_tolower loginUriDomain = "damballah.lindenlab.com".toList
        · simp only [Option.some_bind, if_pos hd]
        · simp only [Option.some_bind, if_neg hd]
    · simp

/-- C18 (as amended): `getMarketplaceDomain` returns "secondlife.com" on the
Second Life production grid, "secondlife-staging.com" on a Second Life beta
grid whose lowercased login domain is "damballah.lindenlab.com", and otherwise
the domain of the login URI with "login." stripped off, lowercased on Second
Life beta grids and as it is on other grids; except that on a Second Life beta
grid, in a build with assertions, a lowercased domain that is not longer than
14 characters or does not end in ".lindenlab.com" aborts the call, and no
domain is returned. This holds for every build, grid and host name. -/
theorem C18_getMarketplaceDomain_cases (SHOW_ASSERT : Bool)
    (utf8str_tolower : List Char → List Char) (isSecondLife isInProductionGrid : Bool)
    (hostName : List Char) :
    ∃ loginUriDomain, getLoginUriDomain hostName = some loginUriDomain ∧
      loginUriDomain = (if "login.".toList <+: hostName then hostName.drop 6 else hostName) ∧
      getMarketplaceDomain SHOW_ASSERT utf8str_tolower isSecondLife isInProductionGrid hostName =
        if isSecondLife = true ∧ isInProductionGrid = false ∧ SHOW_ASSERT = true ∧
            ¬(14 < (utf8str_tolower loginUriDomain).length ∧
              ".lindenlab.com".toList <:+ utf8str_tolower loginUriDomain) then
          none
        else
          some
            (if isSecondLife = true then
              if isInProductionGrid = true then "secondlife.com".toList
              else if utf8str_tolower loginUriDomain = "damballah.lindenlab.com".toList then
                "secondlife-staging.com".toList
              else utf8str_tolower loginUriDomain
            else loginUriDomain) :=
  ⟨_, getLoginUriDomain_eq hostName, rfl,
    getMarketplaceDomain_eq SHOW_ASSERT utf8str_tolower isSecondLife isInProductionGrid hostName
      _ (getLoginUriDomain_eq hostName)⟩

/-- Witness of C18: the beta grid aditi, with the assertion compiled in and a
login URI written with a capital letter. -/
theorem C18_getMarketplaceDomain_cases_witness :
    getMarketplaceDomain true (fun s => s.map Char.toLower) true false
        "login.Aditi.lindenlab.com".toList =
      some "aditi.lindenlab.com".toList := by
  obtain ⟨loginUriDomain, _, hstrip, h⟩ :=
    C18_getMarketplaceDomain_cases true (fun s => s.map Char.toLower) true false
      "login.Aditi.lindenlab.com".toList
  subst hstrip
  exact h.trans (by decide)

/-- Counterexample to C18 as stated: on a Second Life beta grid whose login URI
has the host "login.example.com", with the assertion compiled in, the function
returns nothing, not the stripped, lowercased domain "example.com". -/
theorem C18_getMarketplaceDomain_asserts_lindenlab_domain :
    getLoginUriDomain "login.example.com".toList = some "example.com".toList ∧
      getMarketplaceDomain true (fun s => s.map Char.toLower) true false
          "login.example.com".toList = none ∧
      getMarketplaceDomain true (fun s => s.map Char.toLower) true false
          "login.example.com".toList ≠
        some ("example.com".toList.map Char.toLower) := by
  refine ⟨by decide, ?_, ?_⟩
  · decide
  · decide

end llmarketplacefunctions

/-! # Properties of the script editor core -/

theorem c_str_of_no_nul (s : List Char) (h : Char.ofNat 0 ∉ s) : c_str s = s := by
  unfold c_str
  rw [List.takeWhile_eq_self_iff]
  intro c hc
  have : c ≠ Char.ofNat 0 := fun heq => h (heq ▸ hc)
  simpa using this

/-- C19 (as amended): when the file can be opened, `writeToFile` returns true
and writes the text of the editor up to its first NUL character, a completely
empty script being written as a single space, and leaves the editor core as it
was; for a text that holds no NUL this is exactly the text, and the written
content is not empty. When the file cannot be opened it writes nothing,
appends one error row and returns false. -/
theorem C19_writeToFile_writes_text_or_space {κ : Type} (self : LLScriptEdCore κ) :
    ((self.writeToFile true).1 = true ∧
        (self.writeToFile true).2.2 =
          some (if self.mEditor = [] then [' ']
            else self.mEditor.takeWhile fun c => c ≠ Char.ofNat 0) ∧
        (self.writeToFile true).2.1 = self ∧
        (Char.ofNat 0 ∉ self.mEditor →
          (self.writeToFile true).2.2 =
              some (if self.mEditor = [] then [' '] else self.mEditor) ∧
            (self.writeToFile true).2.2 ≠ some [])) ∧
      ((self.writeToFile false).1 = false ∧
        (self.writeToFile false).2.2 = none ∧
        (self.writeToFile false).2.1.mErrorList =
          self.mErrorList ++
            [{ value := "Error writing to local file. Is your hard drive full?"
               font := "SANSSERIF_SMALL" }] ∧
        (self.writeToFile false).2.1.mErrorList.length = self.mErrorList.length + 1 ∧
        (self.writeToFile false).2.1.mEditor = self.mEditor) := by
  have hsp : c_str [' '] = [' '] := by decide
  have hgen : (self.writeToFile true).2.2 =
      some (if self.mEditor = [] then [' ']
        else self.mEditor.takeWhile fun c => c ≠ Char.ofNat 0) := by
    by_cases he : self.mEditor = []
    · simp [LLScriptEdCore.writeToFile, he, hsp]
    · have hlen : self.mEditor.length ≠ 0 := by
        intro h0
        exact he (List.length_eq_zero.mp h0)
      simp [LLScriptEdCore.writeToFile, he, hlen, c_str]
  refine ⟨⟨by simp [LLScriptEdCore.writeToFile], hgen, by simp [LLScriptEdCore.writeToFile],
    ?_⟩, ?_⟩
  · intro hnul
    have hwritten : (self.writeToFile true).2.2 =
        some (if self.mEditor = [] then [' '] else self.mEditor) := by
      rw [hgen]
      have hc := c_str_of_no_nul _ hnul
      unfold c_str at hc
      rw [hc]
    refine ⟨hwritten, ?_⟩
    rw [hwritten]
    by_cases he : self.mEditor = [] <;> simp [he]
  · simp [LLScriptEdCore.writeToFile]

/-- Witness of C19: the script "default" holds no NUL and is written as it
is. -/
theorem C19_writeToFile_writes_text_or_space_witness :
    Char.ofNat 0 ∉ "default".toList ∧
      (LLScriptEdCore.writeToFile
        ({ mEditor := "default".toList, mErrorList := [], mLiveHelpHandle := none,
           mLiveHelpHistorySize := 0 } : LLScriptEdCore Unit) true).2.2 =
        some "default".toList :=
  ⟨by decide,
    ((C19_writeToFile_writes_text_or_space
      ({ mEditor := "default".toList, mErrorList := [], mLiveHelpHandle := none,
         mLiveHelpHistorySize := 0 } : LLScriptEdCore Unit)).1.2.2.2 (by decide)).1.trans
      (by decide)⟩

/-- Counterexample to C19 as stated: for an editor text that begins with a NUL
character, here NUL followed by "x", the file is opened and true is returned,
but what is written is empty: neither the text nor non-empty. -/
theorem C19_writeToFile_stops_at_nul :
    (LLScriptEdCore.writeToFile
        ({ mEditor := [Char.ofNat 0, 'x'], mErrorList := [], mLiveHelpHandle := none,
           mLiveHelpHistorySize := 0 } : LLScriptEdCore Unit) true).1 = true ∧
      (LLScriptEdCore.writeToFile
        ({ mEditor := [Char.ofNat 0, 'x'], mErrorList := [], mLiveHelpHandle := none,
           mLiveHelpHistorySize := 0 } : LLScriptEdCore Unit) true).2.2 = some [] ∧
      (LLScriptEdCore.writeToFile
        ({ mEditor := [Char.ofNat 0, 'x'], mErrorList := [], mLiveHelpHandle := none,
           mLiveHelpHistorySize := 0 } : LLScriptEdCore Unit) true).2.2 ≠
        some [Char.ofNat 0, 'x'] := by
  refine ⟨by decide, by decide, by decide⟩

theorem LLScriptEdCore.trimHistory_size {κ : Type} (ops : LLComboBoxOps κ) (n : Nat) :
    ∀ (history_combo : κ) (size : Int), (size - 9).toNat ≤ n →
      (LLScriptEdCore.trimHistory ops history_combo size).2 = min size 9 := by
  induction n with
  | zero =>
    intro history_combo size h
    have hle : size ≤ 9 := by omega
    unfold LLScriptEdCore.trimHistory
    simp only [MAX_HISTORY_COUNT]
    rw [if_neg (by omega)]
    simp [hle]
  | succ n ih =>
    intro history_combo size h
    unfold LLScriptEdCore.trimHistory
    simp only [MAX_HISTORY_COUNT]
    by_cases hgt : size > 10 - 1
    · rw [if_pos hgt, ih _ _ (by omega)]
      omega
    · rw [if_neg hgt]
      have hle : size ≤ 9 := by omega
      simp [hle]

/-- C20 (as amended): `addHelpItemToHistory` keeps the help history within its
limit: for every non-empty help string, when the live help floater and its
history combo exist and `0 <= mLiveHelpHistorySize` before the call, then
`1 <= mLiveHelpHistorySize <= MAX_HISTORY_COUNT` after it; for an empty help
string, and when the floater or the combo is missing, the editor core with its
history size and combo box is unchanged. -/
theorem C20_addHelpItemToHistory_keeps_history_in_limit {κ : Type}
    (ops : LLComboBoxOps κ) (self : LLScriptEdCore κ) (help_string : List Char)
    (history_combo : κ) (hs : help_string ≠ [])
    (hf : self.mLiveHelpHandle = some (some history_combo))
    (h0 : 0 ≤ self.mLiveHelpHistorySize) :
    (1 ≤ (self.addHelpItemToHistory ops help_string).mLiveHelpHistorySize ∧
        (self.addHelpItemToHistory ops help_string).mLiveHelpHistorySize ≤ MAX_HISTORY_COUNT) ∧
      self.addHelpItemToHistory ops [] = self ∧
      LLScriptEdCore.addHelpItemToHistory ops { self with mLiveHelpHandle := none } help_string =
        { self with mLiveHelpHandle := none } ∧
      LLScriptEdCore.addHelpItemToHistory ops { self with mLiveHelpHandle := some none }
          help_string =
        { self with mLiveHelpHandle := some none } := by
  have hne : help_string.isEmpty = false := by
    cases help_string with
    | nil => exact absurd rfl hs
    | cons c cs => rfl
  refine ⟨?_, by simp [LLScriptEdCore.addHelpItemToHistory],
    by simp [LLScriptEdCore.addHelpItemToHistory, hne],
    by simp [LLScriptEdCore.addHelpItemToHistory, hne]⟩
  unfold LLScriptEdCore.addHelpItemToHistory
  simp only [hne, hf, MAX_HISTORY_COUNT]
  have ht := fun c => LLScriptEdCore.trimHistory_size ops
    ((self.mLiveHelpHistorySize - 9).toNat) c self.mLiveHelpHistorySize (le_refl _)
  simp only [Bool.false_eq_true, if_false, ht]
  split_ifs <;> simp only [] <;> omega

/-- Witness of C20: the help string "b" added to an empty history on a live
help floater whose combo lists "a" and "b". -/
theorem C20_addHelpItemToHistory_keeps_history_in_limit_witness :
    "b".toList ≠ [] ∧ (0 : Int) ≤ 0 ∧
      1 ≤ (LLScriptEdCore.addHelpItemToHistory listComboBox
        { mEditor := [], mErrorList := [],
          mLiveHelpHandle := some (some (["a".toList, "b".toList], -1)),
          mLiveHelpHistorySize := 0 } "b".toList).mLiveHelpHistorySize ∧
      (LLScriptEdCore.addHelpItemToHistory listComboBox
        { mEditor := [], mErrorList := [],
          mLiveHelpHandle := some (some (["a".toList, "b".toList], -1)),
          mLiveHelpHistorySize := 0 } "b".toList).mLiveHelpHistorySize ≤ MAX_HISTORY_COUNT :=
  ⟨by decide, by decide,
    (C20_addHelpItemToHistory_keeps_history_in_limit listComboBox
      { mEditor := [], mErrorList := [],
        mLiveHelpHandle := some (some (["a".toList, "b".toList], -1)),
        mLiveHelpHistorySize := 0 } "b".toList (["a".toList, "b".toList], -1)
      (by decide) rfl (by decide)).1⟩

/-- Counterexample to C20 as stated: with no live help floater the non-empty
help string "x" leaves a history size of 0 at 0, below 1. -/
theorem C20_addHelpItemToHistory_without_floater :
    "x".toList ≠ [] ∧
      (0 : Int) ≤ (0 : Int) ∧
      (LLScriptEdCore.addHelpItemToHistory listComboBox
        { mEditor := [], mErrorList := [], mLiveHelpHandle := none,
          mLiveHelpHistorySize := 0 } "x".toList).mLiveHelpHistorySize = 0 ∧
      ¬ (1 ≤ (LLScriptEdCore.addHelpItemToHistory listComboBox
        { mEditor := [], mErrorList := [], mLiveHelpHandle := none,
          mLiveHelpHistorySize := 0 } "x".toList).mLiveHelpHistorySize) := by
  refine ⟨by decide, by decide, ?_, ?_⟩
  · decide
  · decide

/-! # Properties of the marketplace import -/

namespace LLMarketplaceInventoryImporter

end LLMarketplaceInventoryImporter
